import Mathlib

/-!
Verification of the img_bot job execution and result-resolution pipeline.

Shallow embedding of:
  * src/comfy/client.py   — ComfyUIClient: queue_prompt, _summarize_prompt_error,
                            _get_file_priority, _extract_first_file, resolve_outputs,
                            wait_for_result
  * src/core/job_queue.py — JobQueue: _run_job, cancel, _is_retryable, _sleep_backoff
  * src/bot/handlers/generate.py — _is_oom_error, HUNYUAN_PRESETS and the preset
                            attempt loop of msg_prompt

Python dicts are modelled as association lists preserving insertion order
(CPython dicts iterate in insertion order); absent or wrongly-typed JSON fields
are modelled with Option.  Machine floats of the backoff computation are
modelled with rationals.  All definitions are executable.
-/

namespace ImgBot

/-! ## Python string helpers -/

/-- Python truthiness-based `x or default` for optional strings:
absent and the empty string both fall back to the default. -/
def pyOrStr : Option String → String → String
  | some s, d => if s = "" then d else s
  | none, d => d

/-- Characters of a string, lowercased.  Models Python `str.lower` (faithful on
the ASCII range, which is all the code compares against). -/
def lowerChars (s : String) : List Char :=
  s.data.map Char.toLower

/-- Python `sub in s` substring test, on char lists. -/
def containsSub (sub s : List Char) : Bool :=
  (List.range (s.length + 1)).any fun i => sub.isPrefixOf (s.drop i)

/-- Python slicing `s[:n]` (by code points, as in Python). -/
def pyTake (n : Nat) (s : String) : String :=
  ⟨s.data.take n⟩

/-- Python `s.endswith(suf)`, on lowercased char lists. -/
def endsWithSuf (suf : List Char) (s : List Char) : Bool :=
  suf.isSuffixOf s

/-! ## Result Resolver (src/comfy/client.py)

`_extract_first_file` walks `history["outputs"]`, collects every file item
found under the keys "videos", "gifs", "images", "files" of every node output,
sorts the candidates by `(extension priority, -size)` with Python's stable
sort, and returns a descriptor of the first. -/

/-- One raw file item (a JSON dict inside e.g. `outputs[node]["images"]`).
`none` models an absent (or falsy-missing) field. -/
structure FileItem where
  filename : Option String
  subfolder : Option String
  ftype : Option String
  size : Option Int
  deriving Repr, DecidableEq

/-- One node's output dict: the four keys the extractor scans, in source
order.  `none` models a key that is absent or not a list. -/
structure NodeOut where
  videos : Option (List FileItem)
  gifs : Option (List FileItem)
  images : Option (List FileItem)
  files : Option (List FileItem)
  deriving Repr, DecidableEq

/-- `history["outputs"]`: node-id keyed dict, insertion ordered; a `none`
value models an entry whose value is not a dict (skipped by the code). -/
abbrev Outputs := List (String × Option NodeOut)

/-- A collected candidate, as built by `_extract_first_file`. -/
structure Candidate where
  node_id : String
  filename : String
  subfolder : String
  ftype : String
  size : Int
  key : String
  deriving Repr, DecidableEq

/-- The descriptor `_extract_first_file` returns. -/
structure Desc where
  node_id : String
  filename : String
  subfolder : String
  ftype : String
  deriving Repr, DecidableEq

/-- `ComfyUIClient._get_file_priority`: extension class of a filename.
video → 0, gif → 1, static image → 2, everything else → 3. -/
def getFilePriority (filename : String) : Nat :=
  let ext := lowerChars filename
  if endsWithSuf ".mp4".data ext || endsWithSuf ".webm".data ext ||
     endsWithSuf ".mov".data ext || endsWithSuf ".avi".data ext ||
     endsWithSuf ".mkv".data ext then 0
  else if endsWithSuf ".gif".data ext then 1
  else if endsWithSuf ".png".data ext || endsWithSuf ".jpg".data ext ||
          endsWithSuf ".jpeg".data ext || endsWithSuf ".webp".data ext ||
          endsWithSuf ".bmp".data ext then 2
  else 3

/-- Candidates contributed by the items of one slot (one `out.get(key)` list). -/
def slotCandidates (nid : String) (keyName : String)
    (items : Option (List FileItem)) : List Candidate :=
  match items with
  | none => []
  | some l =>
    l.filterMap fun it =>
      match it.filename with
      | none => none
      | some fn =>
        if fn = "" then none
        else some
          { node_id := nid
            filename := fn
            subfolder := pyOrStr it.subfolder ""
            ftype := pyOrStr it.ftype "output"
            size := (it.size).getD 0
            key := keyName }

/-- Candidates of one node, scanning the keys in the source order
"videos", "gifs", "images", "files". -/
def nodeCandidates (nid : String) (out : Option NodeOut) : List Candidate :=
  match out with
  | none => []
  | some o =>
    slotCandidates nid "videos" o.videos ++ slotCandidates nid "gifs" o.gifs ++
    slotCandidates nid "images" o.images ++ slotCandidates nid "files" o.files

/-- All candidates of a payload, in collection order. -/
def collectCandidates (outputs : Outputs) : List Candidate :=
  outputs.flatMap fun p => nodeCandidates p.1 p.2

/-- The sort key of `candidates.sort(key=lambda x: (priority, -size))`. -/
def candKey (c : Candidate) : Nat × Int :=
  (getFilePriority c.filename, -c.size)

/-- Lexicographic comparison on the sort key (Python tuple `<=`). -/
def candLe (a b : Candidate) : Bool :=
  (candKey a).1 < (candKey b).1 ||
    ((candKey a).1 = (candKey b).1 && (candKey a).2 ≤ (candKey b).2)

/-- `candLe` as a relation, for use with `List.insertionSort`. -/
def candLeP (a b : Candidate) : Prop := candLe a b = true

instance : DecidableRel candLeP := fun a b => instDecidableEqBool (candLe a b) true

/-- The descriptor built from the winning candidate. -/
def descOf (c : Candidate) : Desc :=
  { node_id := c.node_id, filename := c.filename,
    subfolder := c.subfolder, ftype := c.ftype }

/-- `ComfyUIClient._extract_first_file`: collect, stable-sort by
`(priority, -size)`, return a descriptor of the best candidate (or `none`
when no filename-bearing candidate exists).  Python's `list.sort` is the
stable ascending sort by the key; insertion sort is stable and ascending
for this total preorder, so the two agree element by element. -/
def extractFirstFile (outputs : Outputs) : Option Desc :=
  match List.insertionSort candLeP (collectCandidates outputs) with
  | [] => none
  | best :: _ => some (descOf best)

/-- Modelled from the spec: the declared-slot-name rank of the Result
Resolver's documented two-level key, "a fixed preference order among
output-slot names (e.g., a slot literally named for video output outranks a
generically-named files slot)". -/
def specSlotRank : String → Nat
  | "videos" => 0
  | "gifs" => 1
  | "images" => 2
  | "files" => 3
  | _ => 4

/-- `ComfyUIClient.resolve_outputs`: retry `_extract_first_file` up to
`retries` extra times (the payload is immutable, the sleeps are dropped). -/
def resolveOutputs (outputs : Outputs) : Nat → Option Desc
  | 0 => extractFirstFile outputs
  | r + 1 =>
    match extractFirstFile outputs with
    | some f => some f
    | none => resolveOutputs outputs r

/-! ## Engine Gateway: queue_prompt and _summarize_prompt_error
(src/comfy/client.py)

JSON values are modelled by the inductive `J`; a Python dict is an
association list in insertion order (first binding wins on lookup, as in a
dict without duplicate keys).  `json.loads` failing is modelled by the
caller holding `none` instead of a parsed value. -/

/-- A parsed JSON value (numbers restricted to integers, which is all the
relevant payloads carry). -/
inductive J where
  | null : J
  | bool : Bool → J
  | num : Int → J
  | str : String → J
  | arr : List J → J
  | obj : List (String × J) → J

/-- Dict lookup `d.get(k)` (first binding wins). -/
def jGet (kvs : List (String × J)) (k : String) : Option J :=
  (kvs.find? fun p => p.1 = k).map fun p => p.2

/-- Python truthiness of a JSON value. -/
def jTruthy : J → Bool
  | .null => false
  | .bool b => b
  | .num n => n != 0
  | .str s => s != ""
  | .arr l => !l.isEmpty
  | .obj l => !l.isEmpty

mutual

/-- Python `repr` of a JSON value (string quoting is modelled without the
escape rules, which the relevant payloads never need). -/
def pyRepr : J → String
  | .null => "None"
  | .bool true => "True"
  | .bool false => "False"
  | .num n => toString n
  | .str s => "'" ++ s ++ "'"
  | .arr l => "[" ++ pyReprArr l ++ "]"
  | .obj l => "\x7b" ++ pyReprObj l ++ "\x7d"

def pyReprArr : List J → String
  | [] => ""
  | [x] => pyRepr x
  | x :: xs => pyRepr x ++ ", " ++ pyReprArr xs

def pyReprObj : List (String × J) → String
  | [] => ""
  | [p] => "'" ++ p.1 ++ "': " ++ pyRepr p.2
  | p :: ps => "'" ++ p.1 ++ "': " ++ pyRepr p.2 ++ ", " ++ pyReprObj ps

end

/-- Python `str` of a JSON value. -/
def pyStr : J → String
  | .str s => s
  | v => pyRepr v

/-- `str(d.get(key) or "")`: stringify a looked-up value, with falsy values
and absence collapsing to the empty string. -/
def pyStrOr (o : Option J) : String :=
  match o with
  | some v => if jTruthy v then pyStr v else ""
  | none => ""

/-- Strip characters satisfying `p` from both ends of a char list. -/
def stripBoth (p : Char → Bool) (l : List Char) : List Char :=
  ((l.dropWhile p).reverse.dropWhile p).reverse

/-- Python `s.strip(": ")`: drop leading/trailing colons and spaces. -/
def pyStripColonSpace (s : String) : String :=
  ⟨stripBoth (fun c => c = ':' || c = ' ') s.data⟩

/-- Python `s.strip()`: drop leading/trailing whitespace. -/
def pyStripWs (s : String) : String :=
  ⟨stripBoth Char.isWhitespace s.data⟩

/-- The parts collected from a `node_errors` dict: for each node whose info
is a dict with a list under "errors", the first 3 error dicts contribute
"node {id}: {details or message}" whenever either field is truthy. -/
def nodeErrorParts (ne : List (String × J)) : List String :=
  ne.flatMap fun p =>
    match p.2 with
    | .obj info =>
      match jGet info "errors" with
      | some (.arr errs) =>
        (errs.take 3).filterMap fun e =>
          match e with
          | .obj eo =>
            let details := pyStrOr (jGet eo "details")
            let msg := pyStrOr (jGet eo "message")
            if details ≠ "" || msg ≠ "" then
              some ("node " ++ p.1 ++ ": " ++ (if details ≠ "" then details else msg))
            else none
          | _ => none
      | _ => []
    | _ => []

/-- The generic-error-object branch of `_summarize_prompt_error`: when
`j.get("error")` is a dict, build `(type + ": " + message).strip(": ").strip()`
and return it truncated if non-empty; otherwise fall back to the truncated
raw body. -/
def summarizeErrField (body : String) (kvs : List (String × J)) : String :=
  match jGet kvs "error" with
  | some (.obj eo) =>
    let m := pyStrOr (jGet eo "message")
    let t := pyStrOr (jGet eo "type")
    let s := pyStripWs (pyStripColonSpace (t ++ ": " ++ m))
    if s ≠ "" then pyTake 350 s else pyTake 350 body
  | _ => pyTake 350 body

/-- `ComfyUIClient._summarize_prompt_error(body)`: `parsed` is the result of
`json.loads(body)` (`none` when parsing raises, falling back to the raw body
truncated to 350 characters).  The per-node error list is preferred; the
generic error object is consulted when it yields nothing. -/
def summarizePromptError (body : String) (parsed : Option J) : String :=
  match parsed with
  | some (.obj kvs) =>
    match jGet kvs "node_errors" with
    | some (.obj ne) =>
      if nodeErrorParts ne ≠ [] then
        pyTake 350 (String.intercalate "; " (nodeErrorParts ne))
      else summarizeErrField body kvs
    | _ => summarizeErrField body kvs
  | _ => pyTake 350 body

/-- The engine's HTTP response to `POST /prompt`: status code, raw body
text, the body parsed as JSON (`none` when `r.json()` / `json.loads` would
raise), and — for the paths where the code stringifies a raised exception —
the text `str(e)` of that exception. -/
structure EngineResp where
  status : Nat
  body : String
  parsed : Option J
  excText : String

/-- Outcome of the HTTP POST itself: a response, or a raised transport
exception with its text. -/
inductive ReqResult where
  | resp : EngineResp → ReqResult
  | netExc : String → ReqResult

/-- What `queue_prompt` leaves behind: the returned handle and
`self.last_error` (reset to `None` on entry). -/
structure QueueOutcome where
  handle : String
  lastError : Option String
  deriving Repr, DecidableEq

/-- `ComfyUIClient.queue_prompt`: on non-200 status, summarize the error
body into `last_error` and return the empty handle; on transport or JSON
errors, record the exception text and return the empty handle; on success,
return `str(data.get("prompt_id") or "")`. -/
def queuePrompt : ReqResult → QueueOutcome
  | .netExc m => { handle := "", lastError := some m }
  | .resp r =>
    if r.status ≠ 200 then
      { handle := "", lastError := some (summarizePromptError r.body r.parsed) }
    else
      match r.parsed with
      | some (.obj kvs) =>
        let v := jGet kvs "prompt_id"
        let handle :=
          match v with
          | some x => if jTruthy x then pyStr x else ""
          | none => ""
        { handle := handle, lastError := none }
      | _ => { handle := "", lastError := some r.excText }

/-! ## Job Queue (src/core/job_queue.py)

`_run_job` is embedded as the list of `(status, attempt)` observer reports
it produces.  The worker's behaviour on attempt `n` is an oracle
`worker : Nat → WorkerOutcome`; the cancellation flag, set asynchronously by
`cancel`, is an oracle `cancelAt : Nat → Bool` read at the top of attempt
`n` (the only point `_run_job` polls it).  The fuel argument mirrors the
bounded `for attempt in range(1, max_retries + 2)` loop; starting from
attempt 1 with fuel `max_retries + 1`, the fuel never runs out. -/

inductive JobStatus where
  | queued | running | retrying | done | failed | canceled
  deriving Repr, DecidableEq

/-- DONE, FAILED and CANCELED are the terminal statuses. -/
def JobStatus.isTerminal : JobStatus → Bool
  | .done | .failed | .canceled => true
  | _ => false

/-- The kind of exception a worker invocation raises. -/
inductive ExcKind where
  | cancelledError | timeoutError | connectionError | osError | other
  deriving Repr, DecidableEq

/-- `JobQueue._is_retryable`: `CancelledError` is not retryable; everything
else is (the source's `isinstance(...) or True` makes the isinstance test
vacuous). -/
def isRetryable : ExcKind → Bool
  | .cancelledError => false
  | .timeoutError => true
  | .connectionError => true
  | .osError => true
  | .other => true

/-- What one invocation of the worker function does. -/
inductive WorkerOutcome where
  | ok : WorkerOutcome
  | raise : ExcKind → WorkerOutcome

/-- One report to the `on_status` observer: the status and the value of
`job.attempt` at the time of the report. -/
structure Event where
  status : JobStatus
  attempt : Nat
  deriving Repr, DecidableEq

/-- The observer reports of `JobQueue._run_job` from attempt `attempt` on,
with `fuel` loop iterations remaining, together with the number of worker
invocations performed. -/
def runJobFrom (worker : Nat → WorkerOutcome) (cancelAt : Nat → Bool)
    (maxRetries : Nat) : Nat → Nat → List Event × Nat
  | _, 0 => ([], 0)
  | attempt, fuel + 1 =>
    if cancelAt attempt then ([⟨.canceled, attempt⟩], 0)
    else
      match worker attempt with
      | .ok => ([⟨.running, attempt⟩, ⟨.done, attempt⟩], 1)
      | .raise k =>
        if k = ExcKind.cancelledError then
          ([⟨.running, attempt⟩, ⟨.canceled, attempt⟩], 1)
        else if attempt ≤ maxRetries && isRetryable k then
          let rest := runJobFrom worker cancelAt maxRetries (attempt + 1) fuel
          (⟨.running, attempt⟩ :: ⟨.retrying, attempt⟩ :: rest.1, rest.2 + 1)
        else
          ([⟨.running, attempt⟩, ⟨.failed, attempt⟩], 1)

/-- The observer reports of one `_run_job` call (attempts 1 .. retries+1). -/
def runJobEvents (worker : Nat → WorkerOutcome) (cancelAt : Nat → Bool)
    (maxRetries : Nat) : List Event :=
  (runJobFrom worker cancelAt maxRetries 1 (maxRetries + 1)).1

/-- Worker invocations of one `_run_job` call. -/
def runJobCalls (worker : Nat → WorkerOutcome) (cancelAt : Nat → Bool)
    (maxRetries : Nat) : Nat :=
  (runJobFrom worker cancelAt maxRetries 1 (maxRetries + 1)).2

/-- `JobQueue.enqueue`: reports QUEUED (attempt 0) before the job is put on
the queue. -/
def enqueueEvents : List Event := [⟨.queued, 0⟩]

/-- `JobQueue.cancel`: if the job id is known it sets the cancel flag and
unconditionally reports CANCELED — regardless of the job's current status. -/
def cancelEvents (jobKnown : Bool) (attempt : Nat) : List Event :=
  if jobKnown then [⟨.canceled, attempt⟩] else []

/-- `JobQueue._worker_loop` picking a job off the queue: if the cancel flag
is already set it reports CANCELED and skips the job, otherwise it runs
`_run_job`. -/
def workerPickup (cancelSetAtPickup : Bool) (worker : Nat → WorkerOutcome)
    (cancelAt : Nat → Bool) (maxRetries : Nat) : List Event :=
  if cancelSetAtPickup then [⟨.canceled, 0⟩]
  else runJobEvents worker cancelAt maxRetries

/-- The observer trace of the interleaving "enqueue; cancel; worker picks
the job up": `enqueue` reports QUEUED, `cancel` finds the job and reports
CANCELED, the worker loop then sees the flag set and reports CANCELED
again.  Every step is the source's own behaviour at that point. -/
def traceCancelBeforePickup : List Event :=
  enqueueEvents ++ cancelEvents true 0 ++
    workerPickup true (fun _ => WorkerOutcome.ok) (fun _ => false) 2

/-- A status step the spec's diagram
QUEUED → RUNNING ⇄ RETRYING → \x7bDONE, FAILED, CANCELED\x7d allows: never
out of a terminal status, never back to QUEUED. -/
def okStep : JobStatus → JobStatus → Bool
  | .queued, b => !(b = JobStatus.queued)
  | .running, b => !(b = JobStatus.queued)
  | .retrying, b => !(b = JobStatus.queued)
  | _, _ => false

/-- All consecutive reports are allowed steps. -/
def chainOk : List JobStatus → Bool
  | [] => true
  | [_] => true
  | a :: b :: l => okStep a b && chainOk (b :: l)

/-- Number of terminal statuses in a trace. -/
def terminalCount (tr : List JobStatus) : Nat :=
  (tr.filter JobStatus.isTerminal).length

/-- `JobQueue._sleep_backoff(attempt, base, max_s)`: the slept duration,
with the `random.uniform(0.15, 0.35)` draw made explicit as `u`.  Machine
floats are idealized as rationals. -/
def sleepBackoff (attempt : Nat) (base maxS u : ℚ) : ℚ :=
  let raw := min maxS (base * 2 ^ (max 0 (attempt - 1)))
  let jitter := raw * u
  raw + jitter

/-! ## Completion Waiter: wait_for_result (src/comfy/client.py)

The polling loop is embedded with explicit time in tenths of a second
(`poll_sec=1.0` → 10, the grace sleep 2.0 → 20, `timeout=600` → 6000); the
HTTP calls themselves take no model time.  The environment gives, per check
number `k` (1-based), what the engine answered: `hist k` is
`h.get(prompt_id)`, `topOut k` is the top-level "outputs" value of the full
history response `h` (which is what `resolve_outputs(h, ...)` ends up
scanning, since the code passes the whole response to the resolver), `view`
is the `/view` download outcome and `snap k` the concatenation
`queue_running + queue_pending` of the queue snapshot. -/

/-- The history entry `h[prompt_id]`, when present and a dict. -/
structure HistItem where
  outputs : Outputs
  statusStr : Option String

/-- Outcome of `view_bytes`: non-empty content, empty content, or an
exception after its three internal attempts (30 model-time units of inner
1s sleeps). -/
inductive ViewRes where
  | okBytes | emptyBytes | raised

/-- A queue snapshot: the entries of `queue_running + queue_pending`, each
a list of stringified fields. -/
abbrev QueueSnap := List (List String)

/-- The polling environment. -/
structure WaitEnv where
  hist : Nat → Option HistItem
  topOut : Nat → Outputs
  view : Nat → ViewRes
  snap : Nat → QueueSnap

/-- The `prompt_in_queue` scan: some entry is a list of length ≥ 2 whose
second field equals the handle. -/
def promptInQueue (pid : String) (snap : QueueSnap) : Bool :=
  snap.any fun item => decide (2 ≤ item.length) && item.getD 1 "" == pid

/-- Model time consumed by `resolve_outputs(h, retries=2, delay_sec=1.0)`:
the payload is immutable, so either the first extraction succeeds (no
sleep) or all three fail (two 1s sleeps). -/
def resolveTime (o : Outputs) : Nat :=
  if (extractFirstFile o).isSome then 0 else 20

/-- How `wait_for_result` ends. -/
inductive WaitOutcome where
  | got : Desc → WaitOutcome
  | silentEmptyHistory : Nat → WaitOutcome
  | silentNoOutputs : String → WaitOutcome
  | timedOut : WaitOutcome
  | fuelOut : WaitOutcome
  deriving Repr, DecidableEq

/-- What one loop iteration does next: continue polling from a new state,
or return. -/
inductive StepRes where
  | cont : Nat → Nat → Nat → StepRes
  | stop : WaitOutcome → StepRes
  deriving Repr, DecidableEq

/-- The "early detection" tail of one loop iteration of `wait_for_result`
(reached with `dt` model time already consumed by this iteration's history
resolution): after the first 3 checks, consult the queue snapshot; when the
handle is in neither running nor pending and history is still empty, burn
one grace retry (2s sleep, `continue`) while the budget lasts and otherwise
return the silent failure; when history exists without having yielded an
output, return the no-outputs silent failure; in all other cases sleep
`poll` and loop. -/
def queuePhase (env : WaitEnv) (pid : String)
    (poll historyRetry k retries elapsed dt : Nat) : StepRes :=
  if 3 < k then
    if !(promptInQueue pid (env.snap k)) then
      match env.hist k with
      | none =>
        if retries < historyRetry then
          .cont k (retries + 1) (elapsed + dt + 20)
        else .stop (.silentEmptyHistory retries)
      | some item => .stop (.silentNoOutputs (item.statusStr.getD "unknown"))
    else .cont k retries (elapsed + dt + poll)
  else .cont k retries (elapsed + dt + poll)

/-- One full iteration of the `wait_for_result` polling loop, from the
state (checks done `k0`, grace retries used `retries`, elapsed time). -/
def waitStep (env : WaitEnv) (pid : String)
    (deadline poll historyRetry k0 retries elapsed : Nat) : StepRes :=
  if deadline ≤ elapsed then .stop .timedOut
  else
    match env.hist (k0 + 1) with
    | some item =>
      if !item.outputs.isEmpty then
        match resolveOutputs (env.topOut (k0 + 1)) 2 with
        | some f =>
          match env.view (k0 + 1) with
          | .okBytes => .stop (.got f)
          | .emptyBytes =>
            queuePhase env pid poll historyRetry (k0 + 1) retries elapsed
              (resolveTime (env.topOut (k0 + 1)))
          | .raised =>
            .cont (k0 + 1) retries
              (elapsed + resolveTime (env.topOut (k0 + 1)) + 30 + poll)
        | none =>
          queuePhase env pid poll historyRetry (k0 + 1) retries elapsed
            (resolveTime (env.topOut (k0 + 1)))
      else queuePhase env pid poll historyRetry (k0 + 1) retries elapsed 0
    | none => queuePhase env pid poll historyRetry (k0 + 1) retries elapsed 0

/-- `ComfyUIClient.wait_for_result`, one run from the state
(checks done `k0`, `empty_history_retries` `retries`, elapsed model time).
`.silentEmptyHistory r` is the `return None` after the grace budget is
exhausted (with `last_error` = "completed without outputs (likely OOM)",
`r` the logged retry count); `.silentNoOutputs s` is the `return None` for
a history entry with no outputs (status string `s`); `.timedOut` is the
deadline path.  `fuel` bounds the number of loop iterations; it is an
artifact of the embedding and never reached in the theorems below. -/
def waitRun (env : WaitEnv) (pid : String) (deadline poll historyRetry : Nat) :
    Nat → Nat → Nat → Nat → WaitOutcome
  | 0, _, _, _ => .fuelOut
  | fuel + 1, k0, retries, elapsed =>
    match waitStep env pid deadline poll historyRetry k0 retries elapsed with
    | .stop o => o
    | .cont k r e => waitRun env pid deadline poll historyRetry fuel k r e

/-! ## Preset Downgrade Controller and OOM classifier
(src/bot/handlers/generate.py) -/

/-- One entry of `HUNYUAN_PRESETS`. -/
structure Preset where
  name : String
  width : Nat
  height : Nat
  num_frames : Nat
  fps : Nat
  steps : Nat
  cfg : ℚ
  batch_size : Nat
  weight_dtype : String
  deriving Repr, DecidableEq

/-- `HUNYUAN_PRESETS`: cheapest (360p) to most expensive (720p). -/
def HUNYUAN_PRESETS : List Preset :=
  [ { name := "360p", width := 640, height := 360, num_frames := 25, fps := 12,
      steps := 12, cfg := 55/10, batch_size := 1, weight_dtype := "fp8_e4m3fn_fast" },
    { name := "480p", width := 854, height := 480, num_frames := 33, fps := 12,
      steps := 18, cfg := 62/10, batch_size := 1, weight_dtype := "fp8_e4m3fn_fast" },
    { name := "720p", width := 1280, height := 720, num_frames := 49, fps := 16,
      steps := 20, cfg := 62/10, batch_size := 1, weight_dtype := "fp8_e4m3fn_fast" } ]

/-- `_is_oom_error`: `None` and the empty string are not OOM; otherwise the
lowercased text is searched for the four substrings (note the bare "oom"). -/
def isOomError : Option String → Bool
  | none => false
  | some s =>
    if s = "" then false
    else
      containsSub "out of memory".data (lowerChars s) ||
      containsSub "cuda oom".data (lowerChars s) ||
      containsSub "allocation on device".data (lowerChars s) ||
      containsSub "oom".data (lowerChars s)

/-- The attempt-loop condition for falling back to a lighter preset:
`_is_oom_error(last_err) or "not in queue" in last_err.lower() or
"without outputs" in last_err.lower()`. -/
def isOomish (s : String) : Bool :=
  isOomError (some s) ||
  containsSub "not in queue".data (lowerChars s) ||
  containsSub "without outputs".data (lowerChars s)

/-- `attempt_indices = list(range(start_idx, -1, -1))`. -/
def attemptIndices (start : Nat) : List Nat :=
  (List.range (start + 1)).reverse

/-- What one iteration of the preset attempt loop observes from the engine:
the submission was rejected (`queue_prompt` returned an empty handle, with
`client.last_error` attached), the generation completed, or
`wait_for_result` returned `None` with `client.last_error` attached. -/
inductive EngineAttempt where
  | rejected : Option String → EngineAttempt
  | completed : EngineAttempt
  | noResult : Option String → EngineAttempt

/-- How the Hunyuan preset attempt loop ends. -/
inductive HunyuanOutcome where
  | success : Nat → HunyuanOutcome
  | errorRaised : String → HunyuanOutcome
  deriving Repr, DecidableEq

/-- The message of the `raise RuntimeError` after the loop exhausts with
`result is None` (unreachable from `hunyuanAttemptRun`, whose index list is
never empty; `client.last_error` is modelled by the threaded `lastErr`). -/
def hunyuanFinalErr (lastErr : Option String) : String :=
  let err := pyOrStr lastErr "HunyuanVideo: все попытки провалились"
  if isOomError (some err) then
    "❌ ComfyUI завершился без результата (OOM - нехватка VRAM).\n\n" ++
    "💡 Рекомендации:\n" ++
    "• Перезапустите ComfyUI с --lowvram\n" ++
    "• Закройте другие GPU-приложения\n" ++
    "• Попробуйте позже\n\n" ++
    "Детали: " ++ err
  else err

/-- The preset attempt loop of `msg_prompt` (Hunyuan branch): walks
`attempt_indices` with 1-based counter `i`, returning the list of attempted
preset indices and the outcome.  On a rejected submission it raises with
the summarized engine reason; on a missing result it falls back to the next
cheaper preset only when the error text looks like resource exhaustion or
an early silent failure, and only when attempts remain. -/
def hunyuanGo (env : Nat → EngineAttempt) (total : Nat) :
    List Nat → Nat → Option String → List Nat × HunyuanOutcome
  | [], _, lastErr => ([], .errorRaised (hunyuanFinalErr lastErr))
  | pi :: rest, i, _ =>
    match env i with
    | .rejected er =>
      ([pi], .errorRaised (pyTake 800 (pyStripWs (pyOrStr er "ComfyUI отклонил workflow"))))
    | .completed => ([pi], .success pi)
    | .noResult er =>
      if isOomish (pyOrStr er "unknown error") then
        if i < total then
          (pi :: (hunyuanGo env total rest (i + 1) (some (pyOrStr er "unknown error"))).1,
           (hunyuanGo env total rest (i + 1) (some (pyOrStr er "unknown error"))).2)
        else ([pi], .errorRaised (pyOrStr er "unknown error"))
      else ([pi], .errorRaised (pyOrStr er "unknown error"))

/-- One job's preset attempt sequence, from starting index `start`. -/
def hunyuanAttemptRun (env : Nat → EngineAttempt) (start : Nat) :
    List Nat × HunyuanOutcome :=
  hunyuanGo env (attemptIndices start).length (attemptIndices start) 1 none

/-! ## Concrete inputs used by witnesses and counterexamples -/

/-- The spec's scenario payload:
`{"outputs": {"9": {"images": [{"filename": "a.png"}]},
               "12": {"videos": [{"filename": "b.mp4"}]}}}`. -/
def payloadVideoAndImage : Outputs :=
  [("9", some { videos := none, gifs := none,
                images := some [{ filename := some "a.png", subfolder := none,
                                  ftype := none, size := none }],
                files := none }),
   ("12", some { videos := some [{ filename := some "b.mp4", subfolder := none,
                                   ftype := none, size := none }],
                 gifs := none, images := none, files := none })]

/-- A payload with two same-extension-class candidates where the bigger file
sits in the generically-named "files" slot and the smaller one in the
"videos" slot. -/
def payloadSizeBeatsSlot : Outputs :=
  [("5", some { videos := some [{ filename := some "small.mp4", subfolder := none,
                                  ftype := none, size := some 1 }],
                gifs := none, images := none,
                files := some [{ filename := some "big.mp4", subfolder := none,
                                 ftype := none, size := some 999 }] })]

/-- A concrete rejected submission: HTTP 400 with a structured
`node_errors` body. -/
def respRejected : EngineResp :=
  { status := 400
    body := "\x7b\"node_errors\": ...\x7d"
    parsed := some (J.obj [("node_errors", J.obj [("7", J.obj [("errors",
      J.arr [J.obj [("message", J.str "bad input"),
                    ("details", J.str "ckpt missing")]])])])])
    excText := "boom" }

/-- A polling environment in which the engine never reports the prompt:
empty history, empty queue. -/
def envSilent : WaitEnv :=
  { hist := fun _ => none, topOut := fun _ => [],
    view := fun _ => ViewRes.okBytes, snap := fun _ => [] }

/-- An engine that fails every preset attempt with a CUDA OOM text. -/
def envAllOom : Nat → EngineAttempt :=
  fun _ => EngineAttempt.noResult (some "CUDA out of memory")

/-- A worker function that raises a retryable (timeout) error on every
invocation. -/
def workerAlwaysRaises : Nat → WorkerOutcome :=
  fun _ => WorkerOutcome.raise ExcKind.timeoutError

/-- The all-clear cancellation oracle: `cancel` is never called. -/
def noCancel : Nat → Bool := fun _ => false

/-- The shape every `_run_job` report sequence has: non-empty, starting
with CANCELED or RUNNING, all steps along the allowed diagram, and exactly
one terminal report. -/
def goodTrace (tr : List JobStatus) : Prop :=
  tr ≠ [] ∧
  (tr.head? = some JobStatus.canceled ∨ tr.head? = some JobStatus.running) ∧
  chainOk tr = true ∧ terminalCount tr = 1

/-! # Theorems -/

/-! ## Substring and sorting infrastructure -/

/-- `containsSub` agrees with list-infix. -/
theorem containsSub_iff (sub s : List Char) :
    containsSub sub s = true ↔ sub <:+: s := by
  unfold containsSub
  simp only [List.any_eq_true, List.mem_range]
  constructor
  · rintro ⟨i, _, hp⟩
    exact List.infix_iff_prefix_suffix.mpr
      ⟨s.drop i, List.isPrefixOf_iff_prefix.mp hp, List.drop_suffix i s⟩
  · intro h
    obtain ⟨t, hp, hs⟩ := List.infix_iff_prefix_suffix.mp h
    refine ⟨s.length - t.length, by omega, ?_⟩
    rw [List.isPrefixOf_iff_prefix, ← List.suffix_iff_eq_drop.mp hs]
    exact hp

theorem candLe_total (a b : Candidate) : candLe a b = true ∨ candLe b a = true := by
  simp only [candLe, Bool.or_eq_true, Bool.and_eq_true, decide_eq_true_eq]
  omega

theorem candLe_trans {a b c : Candidate} (h₁ : candLe a b = true)
    (h₂ : candLe b c = true) : candLe a c = true := by
  simp only [candLe, Bool.or_eq_true, Bool.and_eq_true, decide_eq_true_eq] at *
  omega

instance : IsTotal Candidate candLeP := ⟨candLe_total⟩

instance : IsTrans Candidate candLeP := ⟨fun _ _ _ => candLe_trans⟩

/-- The head of the resolver's sorted candidate list is a collected
candidate and is `candLe`-minimal among all of them. -/
theorem sortedHead_min (l : List Candidate) (b : Candidate) (t : List Candidate)
    (h : List.insertionSort candLeP l = b :: t) :
    b ∈ l ∧ ∀ c ∈ l, candLe b c = true := by
  have hperm := List.perm_insertionSort candLeP l
  have hsorted := List.sorted_insertionSort candLeP l
  rw [h] at hperm hsorted
  constructor
  · exact hperm.mem_iff.mp (List.mem_cons_self b t)
  · intro c hc
    have hmem : c ∈ b :: t := hperm.mem_iff.mpr hc
    rcases List.mem_cons.mp hmem with hEq | hTail
    · subst hEq
      rcases candLe_total c c with hbb | hbb
      · exact hbb
      · exact hbb
    · exact List.rel_of_sorted_cons hsorted c hTail

/-! ## C10 — the OOM classifier -/

/-- C10: `_is_oom_error(text)` is True exactly when the lowercased text
contains one of "out of memory", "cuda oom", "allocation on device" or the
bare "oom"; `None` and `""` yield False; and by consequence a text such as
"zoom" (which contains "oom") is classified as OOM. -/
theorem oom_classifier (s : String) :
    (isOomError (some s) = true ↔
      ("out of memory".data <:+: lowerChars s ∨
       "cuda oom".data <:+: lowerChars s ∨
       "allocation on device".data <:+: lowerChars s ∨
       "oom".data <:+: lowerChars s)) ∧
    isOomError none = false ∧
    isOomError (some "") = false ∧
    isOomError (some "zoom") = true := by
  refine ⟨?_, rfl, by decide, by decide⟩
  unfold isOomError
  by_cases hs : s = ""
  · subst hs
    simp only [if_pos rfl]
    constructor
    · intro h
      cases h
    · intro h
      have : lowerChars "" = [] := rfl
      rw [this] at h
      rcases h with h | h | h | h <;>
        simpa using h.length_le
  · simp only [if_neg hs, Bool.or_eq_true, containsSub_iff]
    tauto

/-! ## C9 — resolver absence -/

/-- C9: whenever the payload yields no filename-bearing candidate (in
particular when the outputs map is empty or absent, which the code turns
into the empty dict), both `_extract_first_file` and `resolve_outputs`
return `none`.  Both functions are total in the embedding: no exception is
raised on any payload. -/
theorem resolver_absent (o : Outputs) (h : collectCandidates o = [])
    (r : Nat) : extractFirstFile o = none ∧ resolveOutputs o r = none := by
  have hext : extractFirstFile o = none := by
    unfold extractFirstFile
    rw [h]
    rfl
  refine ⟨hext, ?_⟩
  induction r with
  | zero => simpa [resolveOutputs] using hext
  | succ n ih =>
    unfold resolveOutputs
    rw [hext]
    exact ih

/-- Witness for C9 at the empty payload with the source's default retry
count 3. -/
theorem resolver_absent_witness :
    collectCandidates [] = [] ∧
    (extractFirstFile [] = none ∧ resolveOutputs [] 3 = none) :=
  ⟨rfl, resolver_absent [] rfl 3⟩

/-! ## C8 — backoff bounds -/

/-- C8: for attempt `n ≥ 1`, nonnegative base `b` and ceiling `c`, and a
jitter draw `u ∈ [0.15, 0.35]`, the slept duration lies between `1.15·m`
and `1.35·m` where `m = min(c, b·2^(n-1))`. -/
theorem backoff_bounds (n : Nat) (b c u : ℚ) (_hn : 1 ≤ n) (hb : 0 ≤ b)
    (hc : 0 ≤ c) (hu₁ : 15/100 ≤ u) (hu₂ : u ≤ 35/100) :
    115/100 * min c (b * 2 ^ (n - 1)) ≤ sleepBackoff n b c u ∧
    sleepBackoff n b c u ≤ 135/100 * min c (b * 2 ^ (n - 1)) := by
  have hmax : max 0 (n - 1) = n - 1 := Nat.max_eq_right (Nat.zero_le _)
  have hm : (0:ℚ) ≤ min c (b * 2 ^ (n - 1)) :=
    le_min hc (by positivity)
  unfold sleepBackoff
  rw [hmax]
  set m := min c (b * 2 ^ (n - 1)) with hm_def
  constructor
  · nlinarith
  · nlinarith

/-- Witness for C8 at the job defaults `base = 2.0`, `max = 30.0`,
attempt 1, jitter draw `u = 1/5`. -/
theorem backoff_bounds_witness :
    (1:Nat) ≤ 1 ∧ (0:ℚ) ≤ 2 ∧ (0:ℚ) ≤ 30 ∧
      ((15:ℚ)/100 ≤ 1/5 ∧ (1:ℚ)/5 ≤ 35/100) ∧
    (115/100 * min (30:ℚ) (2 * 2 ^ (1 - 1)) ≤ sleepBackoff 1 2 30 (1/5) ∧
     sleepBackoff 1 2 30 (1/5) ≤ 135/100 * min (30:ℚ) (2 * 2 ^ (1 - 1))) :=
  ⟨le_refl 1, by norm_num, by norm_num, ⟨by norm_num, by norm_num⟩,
   backoff_bounds 1 2 30 (1/5) (le_refl 1) (by norm_num) (by norm_num)
     (by norm_num) (by norm_num)⟩

/-! ## C2 — submission rejection -/

/-- C2 counterexample: at a concrete non-success engine response,
`queue_prompt` does not fail with an exception at all — it returns, and the
returned raw handle is the empty string (the extracted reason goes to
`last_error`).  This refutes "the raw submission handle returned by submit
is never the empty string". -/
theorem queue_prompt_empty_handle_counterexample :
    queuePrompt (ReqResult.resp respRejected) =
      { handle := "", lastError := some "node 7: ckpt missing" } := by
  rfl

set_option maxHeartbeats 1000000 in
/-- Every branch of the summarizer truncates to at most 350 characters. -/
theorem summarize_length_le (body : String) (parsed : Option J) :
    (summarizePromptError body parsed).length ≤ 350 := by
  have hlen : ∀ s : String, (pyTake 350 s).length ≤ 350 := by
    intro s
    show (pyTake 350 s).data.length ≤ 350
    unfold pyTake
    simp only [List.length_take]
    omega
  have herr : ∀ kvs, (summarizeErrField body kvs).length ≤ 350 := by
    intro kvs
    unfold summarizeErrField
    repeat' split
    all_goals (try dsimp only)
    all_goals (try split)
    all_goals exact hlen _
  unfold summarizePromptError
  repeat' split
  all_goals first
    | exact hlen _
    | exact herr _

/-- C2 amended: on every non-success response, `queue_prompt` returns the
empty handle and stores in `last_error` the best-effort human-readable
reason extracted from the engine's structured error body (per-node error
lists, or a generic error object), truncated to at most 350 characters. -/
theorem queue_prompt_rejection (r : EngineResp) (h : r.status ≠ 200) :
    queuePrompt (ReqResult.resp r) =
      { handle := "", lastError := some (summarizePromptError r.body r.parsed) } ∧
    (summarizePromptError r.body r.parsed).length ≤ 350 := by
  constructor
  · simp only [queuePrompt]
    rw [if_pos h]
  · exact summarize_length_le r.body r.parsed

/-- Witness for C2's amended theorem at the concrete rejected response. -/
theorem queue_prompt_rejection_witness :
    respRejected.status ≠ 200 ∧
    (queuePrompt (ReqResult.resp respRejected) =
      { handle := "",
        lastError := some (summarizePromptError respRejected.body respRejected.parsed) } ∧
     (summarizePromptError respRejected.body respRejected.parsed).length ≤ 350) :=
  ⟨by decide, queue_prompt_rejection respRejected (by decide)⟩

/-! ## C3 — the resolver's candidate order -/

/-- C3 counterexample: on `payloadSizeBeatsSlot` both candidates share the
video extension class, yet the resolver returns `big.mp4` from the
generically-named "files" slot over `small.mp4` in the "videos" slot — the
second key component is the (negated) file size, not the declared-slot-name
rank, so the selection is not independent of file size. -/
theorem resolver_size_counterexample :
    extractFirstFile payloadSizeBeatsSlot =
      some { node_id := "5", filename := "big.mp4", subfolder := "", ftype := "output" } ∧
    (∃ c ∈ collectCandidates payloadSizeBeatsSlot,
        c.filename = "small.mp4" ∧ c.key = "videos" ∧ getFilePriority c.filename = 0) ∧
    (∃ c ∈ collectCandidates payloadSizeBeatsSlot,
        c.filename = "big.mp4" ∧ c.key = "files" ∧ getFilePriority c.filename = 0) ∧
    specSlotRank "videos" < specSlotRank "files" := by
  exact ⟨rfl, by decide, by decide, by decide⟩

/-- C3 amended: the resolver orders the candidates by the two-level key
(extension class, negated size) and returns the first: the returned
descriptor comes from a candidate that is `candLe`-minimal among all
collected candidates.  Slot names only influence collection order and hence
tie-breaking through the stable sort. -/
theorem resolver_key_priority_then_size (o : Outputs) (d : Desc)
    (h : extractFirstFile o = some d) :
    ∃ c ∈ collectCandidates o, d = descOf c ∧
      ∀ c' ∈ collectCandidates o, candLe c c' = true := by
  unfold extractFirstFile at h
  rcases hs : List.insertionSort candLeP (collectCandidates o) with _ | ⟨b, t⟩
  · rw [hs] at h
    cases h
  · rw [hs] at h
    obtain ⟨hb, hmin⟩ := sortedHead_min _ b t hs
    injection h with h'
    exact ⟨b, hb, h'.symm, hmin⟩

/-- Witness for C3's amended theorem at the size-beats-slot payload. -/
theorem resolver_key_priority_then_size_witness :
    extractFirstFile payloadSizeBeatsSlot =
      some { node_id := "5", filename := "big.mp4", subfolder := "", ftype := "output" } ∧
    ∃ c ∈ collectCandidates payloadSizeBeatsSlot,
      ({ node_id := "5", filename := "big.mp4", subfolder := "", ftype := "output" } : Desc)
          = descOf c ∧
        ∀ c' ∈ collectCandidates payloadSizeBeatsSlot, candLe c c' = true :=
  ⟨rfl, resolver_key_priority_then_size payloadSizeBeatsSlot _ rfl⟩

/-! ## C5 — video beats image -/

/-- C5: whenever the payload holds both a video-extension candidate and a
static-image-extension candidate, the resolver resolves to a candidate of
the video extension class, whatever the slot names, sizes or insertion
order. -/
theorem resolver_video_wins (o : Outputs)
    (hv : ∃ c ∈ collectCandidates o, getFilePriority c.filename = 0)
    (hi : ∃ c ∈ collectCandidates o, getFilePriority c.filename = 2) :
    ∃ d, extractFirstFile o = some d ∧ getFilePriority d.filename = 0 := by
  obtain ⟨cv, hcv, hcv0⟩ := hv
  rcases hs : List.insertionSort candLeP (collectCandidates o) with _ | ⟨b, t⟩
  · exfalso
    have hperm := List.perm_insertionSort candLeP (collectCandidates o)
    rw [hs] at hperm
    rw [hperm.symm.eq_nil] at hcv
    cases hcv
  · obtain ⟨_, hmin⟩ := sortedHead_min _ b t hs
    have hled := hmin cv hcv
    have hb0 : getFilePriority b.filename = 0 := by
      simp only [candLe, candKey, Bool.or_eq_true, Bool.and_eq_true,
        decide_eq_true_eq] at hled
      omega
    refine ⟨descOf b, ?_, hb0⟩
    unfold extractFirstFile
    rw [hs]

/-- Witness for C5 at the spec's scenario payload: the resolver returns the
`b.mp4` descriptor of node "12". -/
theorem resolver_video_wins_witness :
    (∃ c ∈ collectCandidates payloadVideoAndImage, getFilePriority c.filename = 0) ∧
    (∃ c ∈ collectCandidates payloadVideoAndImage, getFilePriority c.filename = 2) ∧
    (∃ d, extractFirstFile payloadVideoAndImage = some d ∧
        getFilePriority d.filename = 0) ∧
    extractFirstFile payloadVideoAndImage =
      some { node_id := "12", filename := "b.mp4", subfolder := "", ftype := "output" } :=
  ⟨by decide, by decide,
   resolver_video_wins payloadVideoAndImage (by decide) (by decide), rfl⟩

/-! ## C1 — status monotonicity -/

/-- C1 counterexample: in the interleaving "enqueue; cancel; worker picks
the job up", the observer receives QUEUED, CANCELED, CANCELED — two
terminal reports, the second a transition out of a terminal state.  This
refutes the claim for arbitrary interleavings of `cancel` with the
worker. -/
theorem status_double_terminal_counterexample :
    terminalCount (traceCancelBeforePickup.map Event.status) = 2 ∧
    chainOk (traceCancelBeforePickup.map Event.status) = false := by
  decide

/-- Every `_run_job` trace is well-formed, whatever the worker does and
whenever the cancel flag appears. -/
theorem runJobFrom_good (worker : Nat → WorkerOutcome) (cancelAt : Nat → Bool)
    (maxRetries : Nat) :
    ∀ fuel attempt, attempt + fuel = maxRetries + 2 → 1 ≤ fuel →
      goodTrace (((runJobFrom worker cancelAt maxRetries attempt fuel).1).map
        Event.status) := by
  intro fuel
  induction fuel with
  | zero =>
    intro attempt _ h1
    omega
  | succ f ih =>
    intro attempt hsum _
    by_cases hc : cancelAt attempt
    · simp only [runJobFrom, hc, if_true]
      exact ⟨by simp, Or.inl rfl, rfl, rfl⟩
    · rw [Bool.not_eq_true] at hc
      cases hw : worker attempt with
      | ok =>
        simp only [runJobFrom, hc, Bool.false_eq_true, if_false, hw]
        exact ⟨by simp, Or.inr rfl, rfl, rfl⟩
      | raise k =>
        by_cases hkc : k = ExcKind.cancelledError
        · simp only [runJobFrom, hc, Bool.false_eq_true, if_false, hw, hkc, if_true]
          exact ⟨by simp, Or.inr rfl, rfl, rfl⟩
        · by_cases hr : attempt ≤ maxRetries
          · have hret : isRetryable k = true := by
              cases k
              · exact absurd rfl hkc
              all_goals rfl
            have hcond : (decide (attempt ≤ maxRetries) && isRetryable k) = true := by
              rw [hret, decide_eq_true hr]
              rfl
            simp only [runJobFrom, hc, Bool.false_eq_true, if_false, hw,
              if_neg hkc, hcond, if_true]
            have hf : 1 ≤ f := by omega
            obtain ⟨hne, hhead, hchain, hterm⟩ :=
              ih (attempt + 1) (by omega) hf
            rcases htr : ((runJobFrom worker cancelAt maxRetries (attempt + 1)
                f).1).map Event.status with _ | ⟨x, l⟩
            · exact absurd htr hne
            · rw [htr] at hhead hchain hterm
              have hx : x = JobStatus.canceled ∨ x = JobStatus.running := by
                rcases hhead with h' | h'
                · exact Or.inl (by injection h')
                · exact Or.inr (by injection h')
              refine ⟨by simp, Or.inr rfl, ?_, ?_⟩
              · rw [List.map_cons, List.map_cons, htr]
                show (okStep JobStatus.running JobStatus.retrying &&
                  (okStep JobStatus.retrying x && chainOk (x :: l))) = true
                rcases hx with rfl | rfl
                · rw [hchain]
                  rfl
                · rw [hchain]
                  rfl
              · rw [List.map_cons, List.map_cons, htr]
                have : terminalCount (JobStatus.running :: JobStatus.retrying ::
                    x :: l) = terminalCount (x :: l) := by
                  simp [terminalCount, JobStatus.isTerminal]
                rw [this, hterm]
          · have hcond : (decide (attempt ≤ maxRetries) && isRetryable k) = false := by
              rw [decide_eq_false hr]
              rfl
            simp only [runJobFrom, hc, Bool.false_eq_true, if_false, hw,
              if_neg hkc, hcond]
            exact ⟨by simp, Or.inr rfl, rfl, rfl⟩

/-- C1 amended: for the reports produced by the queue itself — QUEUED at
enqueue followed by the worker's `_run_job` reports, with the cancel flag
polled at attempt boundaries — every consecutive pair follows
QUEUED → RUNNING ⇄ RETRYING → \x7bDONE, FAILED, CANCELED\x7d, no step
leaves a terminal status, and exactly one terminal status is reported.
(The `cancel` call itself reports CANCELED unconditionally, which is what
the counterexample exploits; it is excluded here.) -/
theorem status_monotonic (worker : Nat → WorkerOutcome) (cancelAt : Nat → Bool)
    (maxRetries : Nat) :
    chainOk (JobStatus.queued ::
        (runJobEvents worker cancelAt maxRetries).map Event.status) = true ∧
    terminalCount (JobStatus.queued ::
        (runJobEvents worker cancelAt maxRetries).map Event.status) = 1 := by
  obtain ⟨hne, hhead, hchain, hterm⟩ :=
    runJobFrom_good worker cancelAt maxRetries (maxRetries + 1) 1 (by omega)
      (by omega)
  rcases htr : ((runJobFrom worker cancelAt maxRetries 1
      (maxRetries + 1)).1).map Event.status with _ | ⟨x, l⟩
  · exact absurd htr hne
  · rw [htr] at hhead hchain hterm
    have hx : x = JobStatus.canceled ∨ x = JobStatus.running := by
      rcases hhead with h' | h'
      · exact Or.inl (by injection h')
      · exact Or.inr (by injection h')
    unfold runJobEvents
    rw [htr]
    constructor
    · show (okStep JobStatus.queued x && chainOk (x :: l)) = true
      rcases hx with rfl | rfl
      · rw [hchain]
        rfl
      · rw [hchain]
        rfl
    · show terminalCount (JobStatus.queued :: x :: l) = 1
      have : terminalCount (JobStatus.queued :: x :: l) =
          terminalCount (x :: l) := by
        simp [terminalCount, JobStatus.isTerminal]
      rw [this, hterm]

/-! ## C4 — retry budget -/

/-- When every worker invocation raises a retryable error and the cancel
flag is never set, `_run_job` from attempt `attempt` runs all remaining
attempts, reporting RUNNING/RETRYING pairs and finally
RUNNING/FAILED at attempt `maxRetries + 1`, with one worker call per
loop iteration. -/
theorem runJobFrom_allRetryable (worker : Nat → WorkerOutcome) (maxRetries : Nat)
    (hw : ∀ a, ∃ k, worker a = WorkerOutcome.raise k ∧ isRetryable k = true) :
    ∀ fuel attempt, attempt + fuel = maxRetries + 2 → 1 ≤ attempt → 1 ≤ fuel →
      runJobFrom worker noCancel maxRetries attempt fuel =
        ((List.range' attempt (fuel - 1)).flatMap
            (fun i => [⟨.running, i⟩, ⟨.retrying, i⟩]) ++
          [⟨.running, maxRetries + 1⟩, ⟨.failed, maxRetries + 1⟩], fuel) := by
  intro fuel
  induction fuel with
  | zero =>
    intro attempt _ _ h
    omega
  | succ f ih =>
    intro attempt hsum _ _
    obtain ⟨k, hk, hret⟩ := hw attempt
    have hkc : k ≠ ExcKind.cancelledError := by
      intro h
      rw [h] at hret
      cases hret
    by_cases hr : attempt ≤ maxRetries
    · have hf : 1 ≤ f := by omega
      have hcond : (decide (attempt ≤ maxRetries) && isRetryable k) = true := by
        rw [hret, decide_eq_true hr]
        rfl
      simp only [runJobFrom, noCancel, Bool.false_eq_true, if_false, hk,
        if_neg hkc, hcond, if_true]
      rw [ih (attempt + 1) (by omega) (by omega) hf]
      have hrange : List.range' attempt ((f + 1) - 1) =
          attempt :: List.range' (attempt + 1) (f - 1) := by
        rw [Nat.succ_sub_one]
        have hfeq : f = (f - 1) + 1 := by omega
        rw [hfeq]
        rw [List.range'_succ]
        rw [← hfeq]
      rw [hrange, List.flatMap_cons]
      rfl
    · have ha1 : attempt = maxRetries + 1 := by omega
      have hf0 : f = 0 := by omega
      have hcond : (decide (attempt ≤ maxRetries) && isRetryable k) = false := by
        rw [decide_eq_false hr]
        rfl
      simp only [runJobFrom, noCancel, Bool.false_eq_true, if_false, hk,
        if_neg hkc, hcond]
      subst ha1
      subst hf0
      rfl

/-- C4: a job whose worker raises a retryable error on every invocation is
tried exactly `max_retries + 1` times (attempts 1, 2, …, max_retries + 1,
strictly sequential), then reported FAILED. -/
theorem retry_budget (worker : Nat → WorkerOutcome) (maxRetries : Nat)
    (hw : ∀ a, ∃ k, worker a = WorkerOutcome.raise k ∧ isRetryable k = true) :
    runJobCalls worker noCancel maxRetries = maxRetries + 1 ∧
    runJobEvents worker noCancel maxRetries =
      (List.range' 1 maxRetries).flatMap
          (fun i => [⟨.running, i⟩, ⟨.retrying, i⟩]) ++
        [⟨.running, maxRetries + 1⟩, ⟨.failed, maxRetries + 1⟩] := by
  have h := runJobFrom_allRetryable worker maxRetries hw (maxRetries + 1) 1
    (by omega) (by omega) (by omega)
  constructor
  · unfold runJobCalls
    rw [h]
  · unfold runJobEvents
    rw [h]
    simp

/-- Witness for C4: the always-timeout worker with the job default
`max_retries = 2` is called 3 times and the job ends FAILED at attempt 3. -/
theorem retry_budget_witness :
    (∀ a, ∃ k, workerAlwaysRaises a = WorkerOutcome.raise k ∧
        isRetryable k = true) ∧
    (runJobCalls workerAlwaysRaises noCancel 2 = 2 + 1 ∧
     runJobEvents workerAlwaysRaises noCancel 2 =
       (List.range' 1 2).flatMap
           (fun i => [⟨.running, i⟩, ⟨.retrying, i⟩]) ++
         [⟨.running, 2 + 1⟩, ⟨.failed, 2 + 1⟩]) :=
  ⟨fun _ => ⟨ExcKind.timeoutError, rfl, rfl⟩,
   retry_budget workerAlwaysRaises 2 (fun _ => ⟨ExcKind.timeoutError, rfl, rfl⟩)⟩

/-! ## C7 — preset downgrade monotonicity -/

theorem attemptIndices_eq (s : Nat) :
    attemptIndices s = s :: (List.range s).reverse := by
  unfold attemptIndices
  rw [List.range_succ, List.reverse_append]
  rfl

theorem attemptIndices_pairwise (s : Nat) :
    List.Pairwise (· > ·) (attemptIndices s) := by
  unfold attemptIndices
  rw [List.pairwise_reverse]
  exact List.pairwise_lt_range (s + 1)

/-- Whatever the engine does, the attempted indices are a prefix of
`attempt_indices`. -/
theorem hunyuanGo_attempted_isPrefix (env : Nat → EngineAttempt) (total : Nat) :
    ∀ idxs i er, (hunyuanGo env total idxs i er).1 <+: idxs := by
  intro idxs
  induction idxs with
  | nil =>
    intro i er
    exact List.nil_prefix
  | cons pi rest ih =>
    intro i er
    show (hunyuanGo env total (pi :: rest) i er).1 <+: pi :: rest
    unfold hunyuanGo
    cases env i with
    | rejected er' => exact ⟨rest, rfl⟩
    | completed => exact ⟨rest, rfl⟩
    | noResult er' =>
      by_cases ho : isOomish (pyOrStr er' "unknown error") = true
      · by_cases hi : i < total
        · simp only [ho, if_true, hi]
          obtain ⟨t, ht⟩ := ih (i + 1) (some (pyOrStr er' "unknown error"))
          exact ⟨t, by rw [List.cons_append, ht]⟩
        · simp only [ho, if_true, if_neg hi]
          exact ⟨rest, rfl⟩
      · rw [Bool.not_eq_true] at ho
        simp only [ho, Bool.false_eq_true, if_false]
        exact ⟨rest, rfl⟩

/-- The first attempted index is the head of the index list. -/
theorem hunyuanGo_attempted_head (env : Nat → EngineAttempt)
    (total pi : Nat) (rest : List Nat) (i : Nat) (er : Option String) :
    ((hunyuanGo env total (pi :: rest) i er).1).head? = some pi := by
  unfold hunyuanGo
  cases env i with
  | rejected er' => rfl
  | completed => rfl
  | noResult er' =>
    by_cases ho : isOomish (pyOrStr er' "unknown error") = true
    · by_cases hi : i < total
      · simp only [ho, if_true, hi]
        rfl
      · simp only [ho, if_true, if_neg hi]
        rfl
    · rw [Bool.not_eq_true] at ho
      simp only [ho, Bool.false_eq_true, if_false]
      rfl

/-- When every attempt fails with a resource-exhaustion-looking error, the
loop walks the whole index list and raises. -/
theorem hunyuanGo_allOom (env : Nat → EngineAttempt) (total : Nat)
    (ho : ∀ i, ∃ m, env i = EngineAttempt.noResult m ∧
        isOomish (pyOrStr m "unknown error") = true) :
    ∀ idxs i er, i + idxs.length = total + 1 →
      (hunyuanGo env total idxs i er).1 = idxs ∧
      ∃ msg, (hunyuanGo env total idxs i er).2 =
        HunyuanOutcome.errorRaised msg := by
  intro idxs
  induction idxs with
  | nil =>
    intro i er _
    exact ⟨rfl, _, rfl⟩
  | cons pi rest ih =>
    intro i er hlen
    obtain ⟨m, hm, hoom⟩ := ho i
    have hlen' : i + rest.length + 1 = total + 1 := by
      rw [List.length_cons] at hlen
      omega
    by_cases hi : i < total
    · unfold hunyuanGo
      rw [hm]
      simp only [hoom, if_true, hi]
      obtain ⟨h1, msg, h2⟩ := ih (i + 1) (some (pyOrStr m "unknown error"))
        (by omega)
      exact ⟨by rw [h1], msg, h2⟩
    · have hit : i = total := by omega
      have hrest : rest.length = 0 := by omega
      rw [List.length_eq_zero] at hrest
      subst hrest
      unfold hunyuanGo
      rw [hm]
      simp only [hoom, if_true, if_neg hi]
      exact ⟨trivial, _, rfl⟩

/-- C7: within one job, the attempted preset indices start at the chosen
starting index, strictly decrease, never exceed the start, and never
repeat; and when every attempt fails with a resource-exhaustion signature,
the loop attempts every tier down to 0 exactly once and then raises —
tier 0 (and every other tier) is never attempted again. -/
theorem downgrade_monotonic (env : Nat → EngineAttempt) (start : Nat) :
    (hunyuanAttemptRun env start).1.head? = some start ∧
    List.Pairwise (· > ·) (hunyuanAttemptRun env start).1 ∧
    (∀ x ∈ (hunyuanAttemptRun env start).1, x ≤ start) ∧
    (hunyuanAttemptRun env start).1.Nodup ∧
    ((∀ i, ∃ m, env i = EngineAttempt.noResult m ∧
        isOomish (pyOrStr m "unknown error") = true) →
      (hunyuanAttemptRun env start).1 = attemptIndices start ∧
      ∃ msg, (hunyuanAttemptRun env start).2 =
        HunyuanOutcome.errorRaised msg) := by
  have hpre : (hunyuanAttemptRun env start).1 <+: attemptIndices start :=
    hunyuanGo_attempted_isPrefix env (attemptIndices start).length
      (attemptIndices start) 1 none
  have hpw : List.Pairwise (· > ·) (hunyuanAttemptRun env start).1 :=
    (attemptIndices_pairwise start).sublist hpre.sublist
  refine ⟨?_, hpw, ?_, ?_, ?_⟩
  · show ((hunyuanGo env (attemptIndices start).length (attemptIndices start)
      1 none).1).head? = some start
    rw [attemptIndices_eq]
    exact hunyuanGo_attempted_head env _ start _ 1 none
  · intro x hx
    have hx' : x ∈ attemptIndices start := hpre.sublist.subset hx
    unfold attemptIndices at hx'
    rw [List.mem_reverse, List.mem_range] at hx'
    omega
  · exact hpw.imp (fun h => Nat.ne_of_gt h)
  · intro hoom
    exact hunyuanGo_allOom env (attemptIndices start).length hoom
      (attemptIndices start) 1 none (by omega)

/-- Witness for C7: starting at tier 2 with an always-OOM engine, the
attempted indices are exactly [2, 1, 0] and the job raises. -/
theorem downgrade_monotonic_witness :
    (hunyuanAttemptRun envAllOom 2).1 = [2, 1, 0] ∧
    ((hunyuanAttemptRun envAllOom 2).1 = attemptIndices 2 ∧
      ∃ msg, (hunyuanAttemptRun envAllOom 2).2 =
        HunyuanOutcome.errorRaised msg) :=
  ⟨by decide,
   (downgrade_monotonic envAllOom 2).2.2.2.2
     (fun _ => ⟨some "CUDA out of memory", rfl, by decide⟩)⟩

/-! ## C6 — the empty-history grace budget -/

theorem waitRun_cont (env : WaitEnv) (pid : String)
    (d p hr f k0 r e k' r' e' : Nat)
    (h : waitStep env pid d p hr k0 r e = StepRes.cont k' r' e') :
    waitRun env pid d p hr (f + 1) k0 r e = waitRun env pid d p hr f k' r' e' := by
  rw [waitRun, h]

theorem waitRun_stop (env : WaitEnv) (pid : String) (d p hr f k0 r e : Nat)
    (o : WaitOutcome) (h : waitStep env pid d p hr k0 r e = StepRes.stop o) :
    waitRun env pid d p hr (f + 1) k0 r e = o := by
  rw [waitRun, h]

/-- With an empty history, one loop iteration under the deadline is just
the queue phase with no extra resolution time. -/
theorem waitStep_emptyHistory (env : WaitEnv) (pid : String)
    (deadline poll hr k0 retries elapsed : Nat)
    (H1 : ∀ k, env.hist k = none) (hdl : ¬ deadline ≤ elapsed) :
    waitStep env pid deadline poll hr k0 retries elapsed =
      queuePhase env pid poll hr (k0 + 1) retries elapsed 0 := by
  unfold waitStep
  rw [if_neg hdl, H1 (k0 + 1)]

/-- The polling loop under a permanently-empty history and a queue that no
longer lists the handle from tick `N` on: every reachable state keeps the
invariants, and the loop ends in SILENT_FAILURE with the full grace budget
of 5 spent. -/
theorem waitRun_emptyHistory_go (env : WaitEnv) (pid : String)
    (N deadline : Nat)
    (H1 : ∀ k, env.hist k = none)
    (H2 : ∀ k, N ≤ k → promptInQueue pid (env.snap k) = false)
    (Hd : 10 * N + 131 ≤ deadline) :
    ∀ fuel k0 retries, retries ≤ 5 → retries ≤ k0 → k0 - retries ≤ N + 3 →
      (N + 3 - (k0 - retries)) + (6 - retries) ≤ fuel →
      waitRun env pid deadline 10 5 fuel k0 retries
          (10 * (k0 - retries) + 20 * retries) =
        WaitOutcome.silentEmptyHistory 5 := by
  intro fuel
  induction fuel with
  | zero =>
    intro k0 retries h5 hrk hkb hf
    omega
  | succ f ih =>
    intro k0 retries h5 hrk hkb hf
    have hdl : ¬ (deadline ≤ 10 * (k0 - retries) + 20 * retries) := by omega
    by_cases hk3 : 3 < k0 + 1
    · by_cases hq : promptInQueue pid (env.snap (k0 + 1)) = true
      · -- still queued at this tick: by H2 that can only happen before N
        have hkN : k0 + 1 < N := by
          by_contra hge
          rw [H2 (k0 + 1) (by omega)] at hq
          cases hq
        have hstep : waitStep env pid deadline 10 5 k0 retries
            (10 * (k0 - retries) + 20 * retries) =
            StepRes.cont (k0 + 1) retries
              (10 * (k0 - retries) + 20 * retries + 0 + 10) := by
          rw [waitStep_emptyHistory env pid deadline 10 5 k0 retries _ H1 hdl]
          unfold queuePhase
          rw [if_pos hk3, H1 (k0 + 1), hq]
          rfl
        rw [waitRun_cont env pid deadline 10 5 f k0 retries _ _ _ _ hstep]
        have harith : 10 * (k0 - retries) + 20 * retries + 0 + 10 =
            10 * ((k0 + 1) - retries) + 20 * retries := by omega
        rw [harith]
        exact ih (k0 + 1) retries h5 (by omega) (by omega) (by omega)
      · rw [Bool.not_eq_true] at hq
        by_cases hr5 : retries < 5
        · have hstep : waitStep env pid deadline 10 5 k0 retries
              (10 * (k0 - retries) + 20 * retries) =
              StepRes.cont (k0 + 1) (retries + 1)
                (10 * (k0 - retries) + 20 * retries + 0 + 20) := by
            rw [waitStep_emptyHistory env pid deadline 10 5 k0 retries _ H1 hdl]
            unfold queuePhase
            rw [if_pos hk3, H1 (k0 + 1), hq]
            rw [if_pos hr5]
            rfl
          rw [waitRun_cont env pid deadline 10 5 f k0 retries _ _ _ _ hstep]
          have harith : 10 * (k0 - retries) + 20 * retries + 0 + 20 =
              10 * ((k0 + 1) - (retries + 1)) + 20 * (retries + 1) := by omega
          rw [harith]
          exact ih (k0 + 1) (retries + 1) (by omega) (by omega) (by omega)
            (by omega)
        · have hret5 : retries = 5 := by omega
          have hstep : waitStep env pid deadline 10 5 k0 retries
              (10 * (k0 - retries) + 20 * retries) =
              StepRes.stop (WaitOutcome.silentEmptyHistory retries) := by
            rw [waitStep_emptyHistory env pid deadline 10 5 k0 retries _ H1 hdl]
            unfold queuePhase
            rw [if_pos hk3, H1 (k0 + 1), hq]
            rw [if_neg hr5]
            rfl
          rw [waitRun_stop env pid deadline 10 5 f k0 retries _ _ hstep]
          rw [hret5]
    · have hstep : waitStep env pid deadline 10 5 k0 retries
          (10 * (k0 - retries) + 20 * retries) =
          StepRes.cont (k0 + 1) retries
            (10 * (k0 - retries) + 20 * retries + 0 + 10) := by
        rw [waitStep_emptyHistory env pid deadline 10 5 k0 retries _ H1 hdl]
        unfold queuePhase
        rw [if_neg hk3]
      rw [waitRun_cont env pid deadline 10 5 f k0 retries _ _ _ _ hstep]
      have harith : 10 * (k0 - retries) + 20 * retries + 0 + 10 =
          10 * ((k0 + 1) - retries) + 20 * retries := by omega
      rw [harith]
      exact ih (k0 + 1) retries h5 (by omega) (by omega) (by omega)

/-- C6: in a run where the status history never contains an entry for the
handle and, from some tick `N` on, the queue snapshot lists the handle in
neither running nor pending, the waiter (with the source defaults
`poll_sec = 1.0`, `history_retry = 5`, times in tenths of a second) performs
exactly 5 empty-history grace retries — each burning the longer 2s sleep —
and then stops with the silent-failure outcome `silentEmptyHistory 5`
instead of polling on.  Moreover queue snapshots at ticks 1..3 are never
consulted: any environment with the same (empty) history agreeing on
snapshots after tick 3 runs to the same outcome, which formalizes that
queue checking begins only after the initial 3-tick threshold. -/
theorem waiter_silent_failure (env : WaitEnv) (pid : String)
    (N deadline fuel : Nat)
    (H1 : ∀ k, env.hist k = none)
    (H2 : ∀ k, N ≤ k → promptInQueue pid (env.snap k) = false)
    (Hd : 10 * N + 171 ≤ deadline) (Hf : N + 13 ≤ fuel) :
    waitRun env pid deadline 10 5 fuel 0 0 0 =
      WaitOutcome.silentEmptyHistory 5 ∧
    ∀ env' : WaitEnv, env'.hist = env.hist →
      (∀ k, 3 < k → env'.snap k = env.snap k) →
      waitRun env' pid deadline 10 5 fuel 0 0 0 =
        WaitOutcome.silentEmptyHistory 5 := by
  constructor
  · exact waitRun_emptyHistory_go env pid N deadline H1 H2 (by omega) fuel 0 0
      (by omega) (by omega) (by omega) (by omega)
  · intro env' hh hs
    refine waitRun_emptyHistory_go env' pid (max N 4) deadline ?_ ?_ ?_ fuel 0 0
      (by omega) (by omega) (by omega) (by omega)
    · intro k
      rw [hh]
      exact H1 k
    · intro k hk
      rw [hs k (by omega)]
      exact H2 k (by omega)
    · omega

/-- Witness for C6: an engine that never lists the handle and never fills
history, the default 600 s timeout (6000 tenths) and fuel 13 reach
SILENT_FAILURE after exactly 5 grace retries; the concrete run agrees. -/
theorem waiter_silent_failure_witness :
    (∀ k, envSilent.hist k = none) ∧
    (waitRun envSilent "x" 6000 10 5 13 0 0 0 =
        WaitOutcome.silentEmptyHistory 5 ∧
      ∀ env' : WaitEnv, env'.hist = envSilent.hist →
        (∀ k, 3 < k → env'.snap k = envSilent.snap k) →
        waitRun env' "x" 6000 10 5 13 0 0 0 =
          WaitOutcome.silentEmptyHistory 5) :=
  ⟨fun _ => rfl,
   waiter_silent_failure envSilent "x" 0 6000 13 (fun _ => rfl)
     (fun _ _ => rfl) (by norm_num) (by norm_num)⟩

end ImgBot
